import Mathlib

/-!
Verification of the forge build-reconciliation engine.

This file gives a shallow embedding, in Lean, of the reconciliation logic of
the forge repository (a Kubernetes-style controller that drives `Build`
resources through infrastructure provisioning, connection, provisioning steps
and image export), and proves properties of that embedding.

Conventions of the embedding:
* Pointers that may be nil become `Option`.
* Go `error` results become `Option String` (`none` = nil error); Go panics
  (nil-pointer dereferences) become the `Except.error` branch of `Except String`.
* Calls into the object store (get/list/patch/delete) are modelled by an
  environment record supplying the store's responses; the side effects a
  reconcile pass performs are collected in a trace of `Action`s.
* Durations are in seconds.
-/

namespace Forge

/-- Model of `ctrl.Result`. -/
structure CtrlResult where
  requeue : Bool := false
  requeueAfter : Nat := 0
  deriving Repr, DecidableEq

/-- Model of `ctrl.Result.IsZero`. -/
def CtrlResult.isZero (r : CtrlResult) : Bool :=
  !r.requeue && r.requeueAfter == 0

/-- Embedding of `util.LowestNonZeroResult` (sigs.k8s.io/cluster-api/util):
returns the result with the lowest non-zero requeue time. -/
def lowestNonZeroResult (i j : CtrlResult) : CtrlResult :=
  if i.isZero then j
  else if j.isZero then i
  else if i.requeue then i
  else if j.requeue then j
  else if i.requeueAfter < j.requeueAfter then i
  else j

/-- Outcome of a store `Get` call: the object, a not-found error, or another error. -/
inductive GetResult (α : Type) where
  | ok (a : α)
  | notFound
  | err (e : String)

/-- Model of `corev1.ObjectReference` (the fields the engine reads). -/
structure ObjectReference where
  apiVersion : String := ""
  kind : String := ""
  name : String := ""
  deriving Repr, DecidableEq

/-- Model of `metav1.ObjectMeta` (the fields the engine reads).
`deletionTimestamp = 0` models a zero deletion timestamp. -/
structure ObjectMeta where
  name : String := ""
  nspace : String := ""
  labels : List (String × String) := []
  annotations : List (String × String) := []
  finalizers : List String := []
  deletionTimestamp : Nat := 0
  deriving Repr, DecidableEq

/-- Model of a `clusterv1.Condition` (the fields the engine reads). -/
structure Condition where
  type : String := ""
  status : Bool := false
  reason : String := ""
  deriving Repr, DecidableEq

/-- `buildv1.BuildFinalizer`. -/
def BuildFinalizer : String := "build.forge.build"

/-- `buildv1.BuildNameLabel`. -/
def BuildNameLabel : String := "forge.build/build-name"

/-- `buildv1.BuildNamespaceLabel`. -/
def BuildNamespaceLabel : String := "forge.build/build-namespace"

/-- `buildv1.ProvisionerIDLabel`. -/
def ProvisionerIDLabel : String := "forge.build/provisioner-uuid"

/-- `buildv1.PausedAnnotation` (the paused-annotation key). -/
def PausedAnnotationKey : String := "forge.build/paused"

/-- `buildv1.InfrastructureReadyCondition` (condition type; its exact string
value is not read anywhere except as an identity). -/
def InfrastructureReadyCondition : String := "InfrastructureReady"

/-- `buildv1.ReadyCondition`. -/
def ReadyCondition : String := "Ready"

/-- `buildv1.ProvisionersReadyCondition`. -/
def ProvisionersReadyCondition : String := "ProvisionersReady"

/-- `buildv1.BuildInitializedCondition`. -/
def BuildInitializedCondition : String := "BuildInitialized"

/-- `buildv1.ProvisionerType`. -/
inductive ProvisionerType where
  | shell
  | external
  deriving Repr, DecidableEq

/-- `buildv1.ProvisionerStatus`. -/
inductive ProvisionerStatus where
  | pending
  | running
  | completed
  | failed
  | unknown
  deriving Repr, DecidableEq

/-- Model of `buildv1.ProvisionerSpec`. -/
structure ProvisionerSpec where
  uuid : Option String := none
  type : ProvisionerType := .shell
  allowFail : Bool := false
  run : Option String := none
  runConfigMapRef : Option ObjectReference := none
  ref : Option ObjectReference := none
  retries : Option Nat := none
  status : Option ProvisionerStatus := none
  failureReason : Option String := none
  failureMessage : Option String := none
  deriving Repr, DecidableEq

/-- Model of `buildv1.ConnectorSpec`. -/
structure ConnectorSpec where
  type : String := ""
  credentialsName : String := ""
  deriving Repr, DecidableEq

/-- Model of `buildv1.BuildSpec`. -/
structure BuildSpec where
  paused : Bool := false
  connector : ConnectorSpec := {}
  infrastructureRef : Option ObjectReference := none
  provisioners : List ProvisionerSpec := []
  deleteCascade : Bool := false
  deriving Repr, DecidableEq

/-- Model of `buildv1.FailureDomainSpec`. -/
structure FailureDomainSpec where
  infrastructure : Bool := false
  attributes : List (String × String) := []
  deriving Repr, DecidableEq

/-- Model of `buildv1.BuildStatus`.  `failureReason` carries the
`errors.BuildStatusError` token as a string. -/
structure BuildStatus where
  failureDomains : List (String × FailureDomainSpec) := []
  failureReason : Option String := none
  failureMessage : Option String := none
  conditions : List Condition := []
  infrastructureReady : Bool := false
  connected : Bool := false
  provisionersReady : Bool := false
  phase : String := ""
  ready : Bool := false
  deriving Repr, DecidableEq

/-- Model of `buildv1.Build`. -/
structure Build where
  meta : ObjectMeta := {}
  spec : BuildSpec := {}
  status : BuildStatus := {}
  deriving Repr, DecidableEq

/-- `errors.ProvisionerFailedError`. -/
def ProvisionerFailedError : String := "ProvisionerFailed"

/-- `buildv1.DeletedReason` (condition reason used when the InfraBuild is gone). -/
def DeletedReason : String := "Deleted"

/-! ### Annotation helpers (`util/annotations/helpers.go`) -/

/-- Embedding of `hasAnnotation`: true if the object carries the annotation key
(with any value). -/
def hasAnnot (o : ObjectMeta) (key : String) : Bool :=
  (o.annotations.lookup key).isSome

/-- Embedding of `HasPaused`. -/
def HasPaused (o : ObjectMeta) : Bool :=
  hasAnnot o PausedAnnotationKey

/-- Embedding of `IsPaused`: true if the Build's spec is paused or the object
has the paused annotation. -/
def IsPaused (build : Build) (o : ObjectMeta) : Bool :=
  if build.spec.paused then true else HasPaused o

/-! ### Typed phases (`api/v1alpha1/build_types.go`) -/

/-- `buildv1.BuildPhase`. -/
inductive BuildPhase where
  | pending
  | building
  | terminating
  | completed
  | failed
  | unknown
  deriving Repr, DecidableEq

/-- String value of a `BuildPhase` constant. -/
def BuildPhase.toString : BuildPhase → String
  | .pending => "Pending"
  | .building => "Building"
  | .terminating => "Terminating"
  | .completed => "Completed"
  | .failed => "Failed"
  | .unknown => "Unknown"

/-- Embedding of `BuildStatus.GetTypedPhase`. -/
def GetTypedPhase (s : BuildStatus) : BuildPhase :=
  if s.phase = "Pending" then .pending
  else if s.phase = "Building" then .building
  else if s.phase = "Terminating" then .terminating
  else if s.phase = "Completed" then .completed
  else if s.phase = "Failed" then .failed
  else .unknown

/-- Embedding of `BuildStatus.SetTypedPhase` on a whole `Build`. -/
def setTypedPhase (b : Build) (p : BuildPhase) : Build :=
  { b with status := { b.status with phase := p.toString } }

/-- Embedding of `conditions.Has`: the conditions list contains the type. -/
def conditionsHas (conds : List Condition) (t : String) : Bool :=
  conds.any (fun c => c.type == t)

/-- Event emitted through the recorder: warning flag, reason, message. -/
structure Event where
  warning : Bool := false
  reason : String := ""
  message : String := ""
  deriving Repr, DecidableEq

/-! ### Phase projection (`pkg/controllers/build/phases.go`, `reconcilePhase`) -/

/-- Embedding of `BuildReconciler.reconcilePhase`: recomputes
`status.phase` as a derived projection and returns the recorded events. -/
def reconcilePhase (b : Build) : Build × List Event :=
  let preReconcilePhase := GetTypedPhase b.status
  if b.status.phase = "" then
    (setTypedPhase b .pending, [])
  else
    let b1 := if b.spec.infrastructureRef.isSome &&
                 conditionsHas b.status.conditions InfrastructureReadyCondition then
                setTypedPhase b .building else b
    let b2 := if b1.status.infrastructureReady then setTypedPhase b1 .building else b1
    let b3 := if b2.status.failureReason.isSome || b2.status.failureMessage.isSome then
                setTypedPhase b2 .failed else b2
    let b4 := if b3.meta.deletionTimestamp ≠ 0 then setTypedPhase b3 .terminating else b3
    let b5 := if b4.status.ready then setTypedPhase b4 .completed else b4
    let events : List Event :=
      if preReconcilePhase ≠ GetTypedPhase b5.status then
        if GetTypedPhase b5.status = .failed then
          [{ warning := true, reason := (GetTypedPhase b5.status).toString,
             message := "Build " ++ b5.meta.name ++ " is " ++ (GetTypedPhase b5.status).toString
               ++ ": " ++ (b5.status.failureMessage.getD "unknown") }]
        else
          [{ warning := false, reason := (GetTypedPhase b5.status).toString,
             message := "Build " ++ b5.meta.name ++ " is "
               ++ (GetTypedPhase b5.status).toString }]
      else []
    (b5, events)

/-! ### Kube-aware version ordering
(k8s.io/apimachinery `pkg/version/helpers.go`, used through
`KubeAwareAPIVersions` in `pkg/kubernetes/utils.go`). -/

/-- Value of `strconv.Atoi` on an all-digit string, as list-of-char fold. -/
def digitsToNat (l : List Char) : Nat :=
  l.foldl (fun a c => a * 10 + (c.toNat - 48)) 0

/-- Embedding of apimachinery `parseKubeVersion`: matches
`^v([\d]+)(?:(alpha|beta)([\d]+))?$` and returns `(major, type, minor)` with
type `0` = alpha, `1` = beta, `2` = GA (the numeric values of the Go
`versionType` constants). -/
def parseKubeVersion (v : String) : Option (Nat × Nat × Nat) :=
  match v.data with
  | 'v' :: rest =>
    let digits := rest.takeWhile (fun c => c.isDigit)
    let tail := rest.dropWhile (fun c => c.isDigit)
    if digits = [] then none
    else if tail = [] then some (digitsToNat digits, 2, 0)
    else if tail.take 5 = "alpha".data then
      let minor := tail.drop 5
      if minor ≠ [] ∧ minor.all (fun c => c.isDigit) then
        some (digitsToNat digits, 0, digitsToNat minor)
      else none
    else if tail.take 4 = "beta".data then
      let minor := tail.drop 4
      if minor ≠ [] ∧ minor.all (fun c => c.isDigit) then
        some (digitsToNat digits, 1, digitsToNat minor)
      else none
    else none
  | _ => none

/-- Embedding of Go `strings.Compare`. -/
def stringsCompare (a b : String) : Int :=
  if a < b then -1 else if b < a then 1 else 0

/-- Embedding of apimachinery `CompareKubeAwareVersionStrings`: GA sorts above
beta above alpha, then numeric major and minor; unparseable strings sort below
parseable ones and in reverse lexicographic order among themselves. -/
def compareKubeAwareVersionStrings (v1 v2 : String) : Int :=
  match parseKubeVersion v1, parseKubeVersion v2 with
  | none, none => stringsCompare v2 v1
  | none, some _ => -1
  | some _, none => 1
  | some (m1, t1, n1), some (m2, t2, n2) =>
    if t1 ≠ t2 then (t1 : Int) - (t2 : Int)
    else if m1 ≠ m2 then (m1 : Int) - (m2 : Int)
    else (n1 : Int) - (n2 : Int)

/-- The non-strict order induced by `CompareKubeAwareVersionStrings`, with
respect to which `sort.Sort(KubeAwareAPIVersions(...))` sorts ascending. -/
def kubeVersionLE (a b : String) : Prop :=
  compareKubeAwareVersionStrings a b ≤ 0

instance : DecidableRel kubeVersionLE := fun a b => by
  unfold kubeVersionLE; infer_instance

/-- Embedding of `sort.Sort(kubeVersions)` for `KubeAwareAPIVersions`: an
ascending sort with respect to the kube-aware comparison. -/
def sortKubeVersions (l : List String) : List String :=
  List.insertionSort kubeVersionLE l

/-- Embedding of Go `strings.Split(s, "_")`. -/
def splitUnderscore (s : String) : List String :=
  go s.data []
where
  /-- Worker: `acc` holds the current field's characters in reverse. -/
  go : List Char → List Char → List String
  | [], acc => [String.mk acc.reverse]
  | ch :: rest, acc =>
    if ch = '_' then String.mk acc.reverse :: go rest []
    else go rest (ch :: acc)

/-- `buildv1.GroupVersion.String()`, the contract used as the
version-compatibility label key. -/
def contractLabel : String := "forge.build/v1alpha1"

/-- Embedding of `getLatestAPIVersionFromContract`
(`pkg/kubernetes/conversion`): reads the contract label from the CRD
metadata's labels, parses it as an underscore-delimited version list, sorts it
kube-aware and returns the last (greatest) element; a missing or empty label
is a hard error. -/
def getLatestAPIVersionFromContract (labels : List (String × String)) :
    Except String String :=
  match labels.lookup contractLabel with
  | none => .error ("cannot find any versions matching contract " ++ contractLabel)
  | some supportedVersions =>
    if supportedVersions = "" then
      .error ("cannot find any versions matching contract " ++ contractLabel)
    else
      let kubeVersions := sortKubeVersions (splitUnderscore supportedVersions)
      .ok (kubeVersions.getLastD "")

/-! ### Conditions (sigs.k8s.io/cluster-api/util/conditions, as used by the
engine: set-by-type upsert, mark true/false, mirror with fallback). -/

/-- Upsert of a condition by its type (models `conditions.Set`). -/
def setCondition (conds : List Condition) (c : Condition) : List Condition :=
  if conds.any (fun x => x.type == c.type) then
    conds.map (fun x => if x.type == c.type then c else x)
  else conds ++ [c]

/-- Models `conditions.MarkFalse` on a Build. -/
def markFalse (b : Build) (t reason : String) : Build :=
  let conds := setCondition b.status.conditions { type := t, status := false, reason := reason }
  { b with status := { b.status with conditions := conds } }

/-- Models `conditions.MarkTrue` on a Build. -/
def markTrue (b : Build) (t : String) : Build :=
  let conds := setCondition b.status.conditions { type := t, status := true }
  { b with status := { b.status with conditions := conds } }

/-- Models `conditions.IsTrue`. -/
def conditionIsTrue (conds : List Condition) (t : String) : Bool :=
  conds.any (fun c => c.type == t && c.status)

/-- Models `conditions.SetMirror` with `WithFallbackValue`: copies the source
object's Ready condition onto the Build under the target type when present,
otherwise writes the fallback value/reason. -/
def setMirror (b : Build) (t : String) (source : Option Condition)
    (fallbackStatus : Bool) (fallbackReason : String) : Build :=
  match source with
  | some c =>
    let conds := setCondition b.status.conditions
      { type := t, status := c.status, reason := c.reason }
    { b with status := { b.status with conditions := conds } }
  | none =>
    let conds := setCondition b.status.conditions
      { type := t, status := fallbackStatus, reason := fallbackReason }
    { b with status := { b.status with conditions := conds } }

/-- `buildv1.WaitingForInfrastructureFallbackReason`. -/
def WaitingForInfrastructureFallbackReason : String := "WaitingForInfrastructure"

/-- `buildv1.WaitingForConnectionReason`. -/
def WaitingForConnectionReason : String := "WaitingForConnection"

/-- `buildv1.WaitingForProvisionersReason`. -/
def WaitingForProvisionersReason : String := "WaitingForProvisioners"

/-! ### External objects (`internal/external`, used by
`cmd/forge-build/app/controllers.go`). -/

/-- Model of the fetched untyped external object: metadata plus the
conventional status paths the engine reads. -/
structure ExtObj where
  meta : ObjectMeta := {}
  machineReady : Bool := false
  ready : Bool := false
  failureReason : String := ""
  failureMessage : String := ""
  readyCondition : Option Condition := none
  failureDomains : List (String × FailureDomainSpec) := []
  deleteErr : Option String := none

/-- Modelled from the spec: `internal/external.IsMachineReady` is not among
the sources; per the spec the infrastructure phase "copies two readiness
booleans (machine-level and build-level) from the external object's status".
This is the machine-level one (absent field reads as false). -/
def IsMachineReady (o : ExtObj) : Bool := o.machineReady

/-- Modelled from the spec: `internal/external.IsReady` reads the
conventional `status.ready` boolean (absent is false). -/
def IsReady (o : ExtObj) : Bool := o.ready

/-- Modelled from the spec: `internal/external.FailuresFrom` reads the
conventional `status.failureReason` / `status.failureMessage` strings (absent
is the empty string). -/
def FailuresFrom (o : ExtObj) : String × String := (o.failureReason, o.failureMessage)

/-- Side effects a reconcile pass performs against the store (trace). -/
inductive Action where
  | invokePhase (name : String)
  | addFinalizer
  | removeFinalizer
  | deleteChild (name : String)
  | getInfra
  | deleteInfra (name : String)
  | watchExternal
  | patchExternal (name : String)
  | patchBuild
  | createOrPatchJob (uuid : String)
  | deleteJob (name : String)
  | emitEvent (e : Event)
  deriving Repr, DecidableEq

/-- Model of `external.ReconcileOutput`. -/
structure ReconcileOutput where
  result : Option ExtObj := none
  paused : Bool := false
  requeueAfter : Nat := 0

/-- Store responses consumed by `reconcileExternal` (and through it by the
infrastructure phase). -/
structure ExternalEnv where
  crdLabels : Except String (List (String × String)) := .ok []
  fetch : GetResult ExtObj := .notFound
  watchErr : Option String := none
  patchHelperErr : Option String := none
  patchErr : Option String := none

/-- Embedding of `UpdateReferenceAPIContract` (`pkg/kubernetes/conversion`):
fetches the CRD metadata of the referenced kind and resolves the newest
contract version; only success or failure is relevant downstream, since the
subsequent fetch is a store response of the environment. -/
def updateReferenceAPIContract (crdLabels : Except String (List (String × String))) :
    Option String :=
  match crdLabels with
  | .error e => some ("failed to update apiVersion in ref: " ++ e)
  | .ok labels =>
    match getLatestAPIVersionFromContract labels with
    | .error e => some ("failed to update apiVersion in ref: " ++ e)
    | .ok _ => none

/-- Per-phase outcome: result, error, updated Build, side-effect trace. -/
abbrev PhaseOut := CtrlResult × Option String × Build × List Action

/-- Embedding of `BuildReconciler.reconcileExternal`: resolve the reference's
API version, fetch the object (not-found requeues after 30s with no error),
register a watch, check pause markers, adopt the object (owner reference and
belongs-to-build label, one patch), and copy conventional failure fields onto
the Build's status. -/
def reconcileExternal (env : ExternalEnv) (b : Build) (ref : ObjectReference) :
    ReconcileOutput × Option String × Build × List Action :=
  match updateReferenceAPIContract env.crdLabels with
  | some e => ({}, some e, b, [])
  | none =>
    match env.fetch with
    | .notFound => ({ requeueAfter := 30 }, none, b, [])
    | .err e => ({}, some e, b, [])
    | .ok obj =>
      match env.watchErr with
      | some e => ({}, some e, b, [.watchExternal])
      | none =>
        if IsPaused b obj.meta then
          ({ paused := true }, none, b, [.watchExternal])
        else
          match env.patchHelperErr with
          | some e => ({}, some e, b, [.watchExternal])
          | none =>
            match env.patchErr with
            | some e => ({}, some e, b, [.watchExternal, .patchExternal obj.meta.name])
            | none =>
              let fr := (FailuresFrom obj).1
              let fm := (FailuresFrom obj).2
              let wrapped := "Failure detected from referenced resource " ++ ref.kind
                ++ " with name " ++ obj.meta.name ++ ": " ++ fm
              let b1 := if fr ≠ "" then
                  { b with status := { b.status with failureReason := some fr } } else b
              let b2 := if fm ≠ "" then
                  { b1 with status := { b1.status with failureMessage := some wrapped } } else b1
              ({ result := some obj }, none, b2, [.watchExternal, .patchExternal obj.meta.name])

/-! ### Forward pipeline phases (`cmd/forge-build/app/controllers.go`). -/

/-- Embedding of `reconcileInfrastructure`. -/
def reconcileInfrastructure (env : ExternalEnv) (b : Build) : PhaseOut :=
  match b.spec.infrastructureRef with
  | none => ({}, none, b, [])
  | some ref =>
    match reconcileExternal env b ref with
    | (out, err, b0, acts) =>
      match err with
      | some e => ({}, some e, b0, acts)
      | none =>
        if out.requeueAfter > 0 then
          ({ requeueAfter := out.requeueAfter }, none, b0, acts)
        else if out.paused then ({}, none, b0, acts)
        else
          match out.result with
          | none => ({}, none, b0, acts)
          | some infraConfig =>
            if infraConfig.meta.deletionTimestamp ≠ 0 then ({}, none, b0, acts)
            else
              let preInfraReady := b0.status.infrastructureReady
              let infraReady := IsMachineReady infraConfig
              let st1 := { b0.status with infrastructureReady := infraReady }
              let b1 := { b0 with status := st1 }
              let msg1 := "Build " ++ b1.meta.name ++ " InfrastructureReady is now "
                ++ toString infraReady
              let ev1 : Event := { reason := "InfrastructureReady", message := msg1 }
              let acts1 := acts ++
                (if preInfraReady ≠ infraReady then [Action.emitEvent ev1] else [])
              let b2 := setMirror b1 InfrastructureReadyCondition infraConfig.readyCondition
                  infraReady WaitingForInfrastructureFallbackReason
              if !infraReady then ({}, none, b2, acts1)
              else
                let preReady := b2.status.ready
                let ready := IsReady infraConfig
                let b3 := { b2 with status := { b2.status with ready := ready } }
                let msg2 := "Build " ++ b3.meta.name ++ " Ready is now " ++ toString ready
                let ev2 : Event := { reason := "Ready", message := msg2 }
                let acts2 := acts1 ++
                  (if preReady ≠ ready then [Action.emitEvent ev2] else [])
                let b4 := setMirror b3 ReadyCondition infraConfig.readyCondition
                    ready WaitingForInfrastructureFallbackReason
                if !ready then ({}, none, b4, acts2)
                else
                  let st5 := { b4.status with failureDomains := infraConfig.failureDomains }
                  ({}, none, { b4 with status := st5 }, acts2)

/-- Embedding of `reconcileConnection`: gated on InfrastructureReady; sets the
waiting-for-connection condition (transport extension point). -/
def reconcileConnection (b : Build) : PhaseOut :=
  if !b.status.infrastructureReady then ({}, none, b, [])
  else if b.status.connected then ({}, none, b, [])
  else ({}, none, markFalse b BuildInitializedCondition WaitingForConnectionReason, [])

/-- Embedding of `reconcileProvisioners`: gated on Connected; sets the
waiting-for-provisioners condition. -/
def reconcileProvisioners (b : Build) : PhaseOut :=
  if !b.status.connected then ({}, none, b, [])
  else if b.status.provisionersReady then ({}, none, b, [])
  else ({}, none, markFalse b ProvisionersReadyCondition WaitingForProvisionersReason, [])

/-- Embedding of `reconcileImageProvided`: gated on ProvisionersReady; marks
the build-initialized condition once ready. -/
def reconcileImageProvided (b : Build) : PhaseOut :=
  if !b.status.provisionersReady then ({}, none, b, [])
  else if b.status.ready && conditionIsTrue b.status.conditions ReadyCondition then
    ({}, none, b, [])
  else ({}, none, markTrue b BuildInitializedCondition, [])

/-- Embedding of the phase loop inside `BuildReconciler.reconcile`: every
phase is invoked; all errors are collected; the result is merged with
`LowestNonZeroResult`, but no merge happens once any error has been
recorded. -/
def runPhases : List (String × (Build → PhaseOut)) → Build → CtrlResult → List String →
    List Action → CtrlResult × List String × Build × List Action
  | [], b, res, errs, acts => (res, errs, b, acts)
  | (name, phase) :: rest, b, res, errs, acts =>
    match phase b with
    | (phaseResult, err, b1, pacts) =>
      let errs1 := errs ++ (match err with | some e => [e] | none => [])
      let res1 := if errs1 = [] then lowestNonZeroResult res phaseResult else res
      runPhases rest b1 res1 errs1 (acts ++ [.invokePhase name] ++ pacts)

/-- The ordered phase table of `BuildReconciler.reconcile`. -/
def buildPhases (env : ExternalEnv) : List (String × (Build → PhaseOut)) :=
  [("reconcileInfrastructure", reconcileInfrastructure env),
   ("reconcileConnection", reconcileConnection),
   ("reconcileProvisioners", reconcileProvisioners),
   ("reconcileImageProvided", reconcileImageProvided)]

/-- Embedding of `BuildReconciler.reconcile` (the forward pipeline). -/
def forwardReconcile (env : ExternalEnv) (b : Build) :
    CtrlResult × List String × Build × List Action :=
  runPhases (buildPhases env) b {} [] []

/-- The (result, error) outcome of each phase in one pass, threading the
Build through the phases exactly as the loop does. -/
def phaseOutcomes : List (String × (Build → PhaseOut)) → Build →
    List (CtrlResult × Option String)
  | [], _ => []
  | (_, phase) :: rest, b =>
    match phase b with
    | (r, e, b1, _) => (r, e) :: phaseOutcomes rest b1

/-! ### Cascading deletion (`reconcileDelete` and `listDescendants`). -/

/-- `deleteRequeueAfter` (5 seconds). -/
def deleteRequeueAfter : Nat := 5

/-- A descendant object as returned by a label-filtered List call: the fields
the deletion workflow reads, plus the store's response to deleting it. -/
structure DescObj where
  name : String := ""
  deletionTimestamp : Nat := 0
  owned : Bool := false
  deleteErr : Option String := none
  deriving Repr, DecidableEq

/-- Model of the `buildDescendants` struct. -/
structure BuildDescendants where
  infraBuild : List DescObj := []
  provisioners : List DescObj := []
  deriving Repr, DecidableEq

/-- Embedding of `buildDescendants.length`. -/
def BuildDescendants.length (d : BuildDescendants) : Nat :=
  d.infraBuild.length + d.provisioners.length

/-- Store responses consumed by the deletion workflow. -/
structure DeleteEnv where
  list : ObjectReference → Except String (List DescObj) := fun _ => .ok []
  infraGet : GetResult ExtObj := .notFound

/-- Worker for the external-provisioner part of `listDescendants`. -/
def listProvisionerDescendants (env : DeleteEnv) :
    List ProvisionerSpec → List DescObj → Except String (List DescObj × Option String)
  | [], acc => .ok (acc, none)
  | p :: rest, acc =>
    if p.type = .external then
      match p.ref with
      | none => .error "invalid memory address or nil pointer dereference"
      | some r =>
        match env.list r with
        | .error e =>
          .ok (acc, some ("failed to list objects with kind " ++ r.kind ++ ": " ++ e))
        | .ok items => listProvisionerDescendants env rest (acc ++ items)
    else listProvisionerDescendants env rest acc

/-- Embedding of `listDescendants`: lists the InfraBuild kind and, for every
provisioner of kind external, that provisioner's kind, each filtered by the
belongs-to-build label (the filtering is the store's).  Dereferencing a nil
`InfrastructureRef` (or a nil external provisioner `Ref`) panics, exactly as
the Go code would. -/
def listDescendants (env : DeleteEnv) (b : Build) :
    Except String (BuildDescendants × Option String) :=
  match b.spec.infrastructureRef with
  | none => .error "invalid memory address or nil pointer dereference"
  | some infraRef =>
    match env.list infraRef with
    | .error e =>
      .ok ({}, some ("failed to list objects with kind " ++ infraRef.kind ++ ": " ++ e))
    | .ok infraItems =>
      match listProvisionerDescendants env b.spec.provisioners [] with
      | .error p => .error p
      | .ok (provItems, perr) =>
        .ok ({ infraBuild := infraItems, provisioners := provItems }, perr)

/-- Embedding of `filterOwnedDescendants`: descendants whose owner references
include this Build, provisioners first, InfraBuild last. -/
def filterOwnedDescendants (d : BuildDescendants) : List DescObj :=
  d.provisioners.filter (fun o => o.owned) ++ d.infraBuild.filter (fun o => o.owned)

/-- Embedding of `BuildReconciler.reconcileDelete`: delete owned,
not-yet-terminating children; requeue after 5s while any descendant remains;
then fetch the referenced infrastructure object — not-found lets the pass
fall through to finalizer removal, found mirrors its condition, deletes it
and stops without removing the finalizer. -/
def reconcileDelete (env : DeleteEnv) (b : Build) :
    Except String (CtrlResult × Option String × Build × List Action) :=
  match listDescendants env b with
  | .error p => .error p
  | .ok (descendants, lerr) =>
    match lerr with
    | some e => .ok ({}, some e, b, [])
    | none =>
      let children := filterOwnedDescendants descendants
      let toDelete := children.filter (fun child => child.deletionTimestamp == 0)
      let acts := toDelete.map (fun child => Action.deleteChild child.name)
      let errs := toDelete.filterMap (fun child => child.deleteErr)
      if errs ≠ [] then .ok ({}, some (String.intercalate ", " errs), b, acts)
      else if descendants.length > 0 then
        .ok ({ requeueAfter := deleteRequeueAfter }, none, b, acts)
      else
        match b.spec.infrastructureRef with
        | some ref =>
          let acts1 := acts ++ [Action.getInfra]
          match env.infraGet with
          | .notFound =>
            let b1 := markFalse b InfrastructureReadyCondition DeletedReason
            let m2 := { b1.meta with finalizers := b1.meta.finalizers.erase BuildFinalizer }
            let b2 := { b1 with meta := m2 }
            let delMsg := "Build " ++ b2.meta.name ++ " has been deleted"
            let ev : Event := { reason := "Deleted", message := delMsg }
            .ok ({}, none, b2, acts1 ++ [Action.removeFinalizer, Action.emitEvent ev])
          | .err e =>
            let msg := "failed to get " ++ ref.kind ++ " " ++ ref.name ++ " for Build: " ++ e
            .ok ({}, some msg, b, acts1)
          | .ok obj =>
            let b1 := setMirror b InfrastructureReadyCondition obj.readyCondition
                false "Deleting"
            match obj.deleteErr with
            | some e =>
              .ok ({}, some ("failed to delete " ++ obj.meta.name ++ ": " ++ e), b1,
                acts1 ++ [Action.deleteInfra obj.meta.name])
            | none =>
              .ok ({}, none, b1, acts1 ++ [Action.deleteInfra obj.meta.name])
        | none =>
          let m2 := { b.meta with finalizers := b.meta.finalizers.erase BuildFinalizer }
          let b2 := { b with meta := m2 }
          let delMsg := "Build " ++ b2.meta.name ++ " has been deleted"
          let ev : Event := { reason := "Deleted", message := delMsg }
          .ok ({}, none, b2, acts ++ [Action.removeFinalizer, Action.emitEvent ev])

/-! ### Top-level `BuildReconciler.Reconcile`. -/

/-- Model of `kerrors.NewAggregate`: nil on an empty error list. -/
def newAggregate (errs : List String) : Option String :=
  match errs with
  | [] => none
  | _ => some (String.intercalate ", " errs)

/-- Embedding of `controllerutil.AddFinalizer`. -/
def addFinalizerTo (b : Build) : Build :=
  if BuildFinalizer ∈ b.meta.finalizers then b
  else { b with meta := { b.meta with finalizers := b.meta.finalizers ++ [BuildFinalizer] } }

/-- Store responses consumed by one `Reconcile` invocation. -/
structure ReconcileEnv where
  getBuild : GetResult Build := .notFound
  patchHelperErr : Option String := none
  patchErr : Option String := none
  extEnv : ExternalEnv := {}
  delEnv : DeleteEnv := {}

/-- Embedding of `BuildReconciler.Reconcile`: fetch (missing is a no-op),
pause check, deferred phase-projection + one status patch, deletion workflow
on a deletion timestamp, finalizer addition with immediate return, else the
forward pipeline. -/
def Reconcile (env : ReconcileEnv) :
    Except String (CtrlResult × Option String × Option Build × List Action) :=
  match env.getBuild with
  | .notFound => .ok ({}, none, none, [])
  | .err e => .ok ({}, some e, none, [])
  | .ok build =>
    if IsPaused build build.meta then .ok ({}, none, some build, [])
    else
      match env.patchHelperErr with
      | some e => .ok ({}, some e, some build, [])
      | none =>
        let body : Except String (CtrlResult × Option String × Build × List Action) :=
          if build.meta.deletionTimestamp ≠ 0 then
            reconcileDelete env.delEnv build
          else if !(BuildFinalizer ∈ build.meta.finalizers) then
            .ok ({}, none, addFinalizerTo build, [Action.addFinalizer])
          else
            match forwardReconcile env.extEnv build with
            | (res, errs, b1, acts) => .ok (res, newAggregate errs, b1, acts)
        match body with
        | .error p => .error p
        | .ok (res, err, b1, acts) =>
          match reconcilePhase b1 with
          | (b2, events) =>
            let err2 := newAggregate
              ((match err with | some e => [e] | none => []) ++
               (match env.patchErr with | some e => [e] | none => []))
            .ok (res, err2, some b2, acts ++ events.map Action.emitEvent ++ [Action.patchBuild])

/-! ### Shell provisioner reconcile (`provisioner/shell/controller/reconcile.go`,
top-level `Reconcile`). -/

/-- Model of `controllerutil.OperationResult`. -/
inductive OperationResult where
  | unchanged
  | created
  | updated
  deriving Repr, DecidableEq

/-- Store responses consumed by the shell provisioner `Reconcile`. -/
structure ShellEnv where
  newUUID : String := ""
  buildJobErr : Option String := none
  createOrPatch : Except String OperationResult := .ok .created

/-- The status switch at the end of the shell provisioner `Reconcile`
(dereferencing a nil `spec.Status`, or nil failure fields in the
not-allowed-to-fail branch, panics as in Go). -/
def shellStatusSwitch (build : Build) (spec : ProvisionerSpec) (acts : List Action) :
    Except String (CtrlResult × Option String × Build × ProvisionerSpec × List Action) :=
  match spec.status with
  | none => .error "invalid memory address or nil pointer dereference"
  | some st =>
    match st with
    | .pending => .ok ({}, none, build, spec, acts)
    | .running => .ok ({ requeueAfter := 2 }, none, build, spec, acts)
    | .completed => .ok ({}, none, build, spec, acts)
    | .failed =>
      if spec.allowFail then .ok ({}, none, build, spec, acts)
      else
        match spec.uuid, spec.failureReason, spec.failureMessage with
        | some u, some fr, some fm =>
          let msg := "Provisioner " ++ u ++ " failed with Reason " ++ fr
            ++ " and Message " ++ fm
          let st1 := { build.status with
            failureReason := some ProvisionerFailedError, failureMessage := some msg }
          .ok ({}, none, { build with status := st1 }, spec, acts)
        | _, _, _ => .error "invalid memory address or nil pointer dereference"
    | .unknown => .ok ({}, none, build, spec, acts)

/-- Embedding of the shell provisioner `Reconcile`: with no UUID it creates
the Job (create-or-patch), persists the UUID, marks the spec Running and
requeues after 2s when the Job was actually created or changed; otherwise it
dispatches on the spec's status.  Note the Go code dereferences `spec.Run`
when only `RunConfigMapRef` is set — a panic, kept as such. -/
def shellReconcile (env : ShellEnv) (build : Build) (spec : ProvisionerSpec) :
    Except String (CtrlResult × Option String × Build × ProvisionerSpec × List Action) :=
  if spec.uuid.isNone then
    if spec.runConfigMapRef.isSome && spec.run.isNone then
      .error "invalid memory address or nil pointer dereference"
    else
      match env.buildJobErr with
      | some e => .ok ({}, some e, build, spec, [])
      | none =>
        match env.createOrPatch with
        | .error e => .ok ({}, some e, build, spec, [])
        | .ok op =>
          let spec1 := { spec with
            uuid := some env.newUUID, status := some ProvisionerStatus.running }
          let acts := [Action.createOrPatchJob env.newUUID]
          if op ≠ .unchanged then
            .ok ({ requeueAfter := 2 }, none, build, spec1, acts)
          else shellStatusSwitch build spec1 acts
  else shellStatusSwitch build spec []

/-! ### Job observer (`provisioner/shell/controller/reconcile.go`,
`ShellJobController`). -/

/-- Model of a `batchv1.JobCondition` (the fields the observer reads). -/
structure JobCondition where
  type : String := ""
  status : String := ""
  deriving Repr, DecidableEq

/-- Model of a `batchv1.Job` (the fields the observer reads). -/
structure Job where
  meta : ObjectMeta := {}
  conditions : List JobCondition := []
  deriving Repr, DecidableEq

/-- Model of `corev1.ContainerStateTerminated`. -/
structure TermState where
  exitCode : Int := 0
  reason : String := ""
  message : String := ""
  deriving Repr, DecidableEq

/-- Model of a `corev1.ContainerStatus`. -/
structure ContainerStatus where
  name : String := ""
  terminated : Option TermState := none
  deriving Repr, DecidableEq

/-- Model of a `corev1.Pod` (the fields the observer reads). -/
structure Pod where
  initContainerStatuses : List ContainerStatus := []
  containerStatuses : List ContainerStatus := []
  deriving Repr, DecidableEq

/-- Embedding of `GetTerminatedContainersStatusesByPod`: terminated init
containers then terminated main containers, keyed by container name (the Go
map is modelled as an association list in insertion order). -/
def GetTerminatedContainersStatusesByPod (pod : Option Pod) : List (String × TermState) :=
  match pod with
  | none => []
  | some p =>
    p.initContainerStatuses.filterMap (fun s => s.terminated.map (fun t => (s.name, t))) ++
      p.containerStatuses.filterMap (fun s => s.terminated.map (fun t => (s.name, t)))

/-- Embedding of `util.GetProvisionerByID`: index of the first provisioner
whose UUID (nil reads as "") equals the id. -/
def GetProvisionerByID (build : Build) (id : String) : Except String Nat :=
  match build.spec.provisioners.findIdx? (fun p => p.uuid.getD "" == id) with
  | some i => .ok i
  | none => .error ("provisioner with ID " ++ id ++ " not found in Build " ++ build.meta.name)

/-- Failure mode of the pod lookup behind
`GetTerminatedContainersStatusesByJob`. -/
inductive PodErr where
  | notFound (m : String)
  | other (m : String)
  deriving Repr, DecidableEq

/-- Store responses consumed by one observer reconcile. -/
structure ObserverEnv where
  getJob : GetResult Job := .notFound
  getBuild : GetResult Build := .notFound
  patchHelperErr : Option String := none
  patchErr : Option String := none
  podLookup : Except PodErr (Option Pod) := .ok none
  deleteJobResult : GetResult Unit := .ok ()

/-- Embedding of `deleteJob`: not-found is swallowed, other errors returned. -/
def deleteJobErr (env : ObserverEnv) : Option String :=
  match env.deleteJobResult with
  | .ok _ => none
  | .notFound => none
  | .err e => some ("deleting job: " ++ e)

/-- Embedding of `processFailedScanJob`: enumerate the Job's Pod's terminated
container statuses, record the last non-zero-exit container's reason/message
on the matching ProvisionerSpec, set it Failed, patch the Build (patch errors
are only logged) and delete the Job.  (The
`IsPodControlledByJobNotFound` branch of
`GetTerminatedContainersStatusesByJob` is dead code — that error value is
never produced — and is not modelled.) -/
def processFailedScanJob (env : ObserverEnv) (job : Job) (build : Build)
    (provisionerID : String) : Option String × Build × List Action :=
  match env.podLookup with
  | .error (.notFound m) => (some m, build, [])
  | .error (.other m) => (some ("unknown issue: " ++ m), build, [])
  | .ok pod =>
    let statuses := GetTerminatedContainersStatusesByPod pod
    match GetProvisionerByID build provisionerID with
    | .error e => (some e, build, [])
    | .ok i =>
      let p0 := build.spec.provisioners.getD i {}
      let p1 := statuses.foldl (fun p st =>
          if st.2.exitCode == 0 then p
          else { p with
            failureReason := some st.2.reason, failureMessage := some st.2.message }) p0
      let p2 := { p1 with status := some ProvisionerStatus.failed }
      let spec1 := { build.spec with provisioners := build.spec.provisioners.set i p2 }
      (deleteJobErr env, { build with spec := spec1 },
        [Action.patchBuild, Action.deleteJob job.meta.name])

/-- Embedding of `processCompleteScanJob`: set the matching ProvisionerSpec
Completed, patch the Build (patch errors are only logged), delete the Job. -/
def processCompleteScanJob (env : ObserverEnv) (job : Job) (build : Build)
    (provisionerID : String) : Option String × Build × List Action :=
  match GetProvisionerByID build provisionerID with
  | .error e => (some e, build, [])
  | .ok i =>
    let p0 := build.spec.provisioners.getD i {}
    let p2 := { p0 with status := some ProvisionerStatus.completed }
    let spec1 := { build.spec with provisioners := build.spec.provisioners.set i p2 }
    (deleteJobErr env, { build with spec := spec1 },
      [Action.patchBuild, Action.deleteJob job.meta.name])

/-- Embedding of `ShellJobController.reconcileJobs`: fetch the Job (missing or
condition-less Jobs are ignored), fetch the Build named by the correlation
labels, then dispatch on the first Job condition: Complete and Failed are
processed; any other condition type is logged and returned as an error with
no state mutation. -/
def reconcileJobs (env : ObserverEnv) : CtrlResult × Option String × Option Build × List Action :=
  match env.getJob with
  | .notFound => ({}, none, none, [])
  | .err e => ({}, some ("getting job from cache: " ++ e), none, [])
  | .ok job =>
    if job.conditions = [] then ({}, none, none, [])
    else
      let provisionerID := (job.meta.labels.lookup ProvisionerIDLabel).getD ""
      match env.getBuild with
      | .notFound => ({}, none, none, [])
      | .err e => ({}, some ("getting build from cache: " ++ e), none, [])
      | .ok build =>
        match env.patchHelperErr with
        | some e => ({}, some ("failed to create patch helper: " ++ e), some build, [])
        | none =>
          match job.conditions with
          | [] => ({}, none, some build, [])
          | c :: _ =>
            if c.type = "Complete" then
              match processCompleteScanJob env job build provisionerID with
              | (err, b2, acts) => ({}, err, some b2, acts)
            else if c.type = "Failed" then
              match processFailedScanJob env job build provisionerID with
              | (err, b2, acts) => ({}, err, some b2, acts)
            else
              ({}, some ("unrecognized scan job condition: " ++ c.type), some build, [])

/-- Concrete Failed Job used to evaluate the observer scenario. -/
def failedJobFixture : Job :=
  { meta := { name := "job-1", labels := [(ProvisionerIDLabel, "id-1")] },
    conditions := [{ type := "Failed" }] }

/-- Concrete terminated container status (exit 1, reason Error, message boom). -/
def errorTermFixture : ContainerStatus :=
  { name := "main",
    terminated := some { exitCode := 1, reason := "Error", message := "boom" } }

/-- Concrete one-container Pod for the observer scenario. -/
def failedPodFixture : Pod :=
  { containerStatuses := [errorTermFixture] }

/-- Concrete Build holding one provisioner with the matching UUID. -/
def observedBuildFixture : Build :=
  { spec := { provisioners := [{ uuid := some "id-1" }] } }

/-- Concrete observer environment for the Job-failure scenario. -/
def failedObserverEnvFixture : ObserverEnv :=
  { getJob := .ok failedJobFixture,
    getBuild := .ok observedBuildFixture,
    podLookup := .ok (some failedPodFixture),
    deleteJobResult := .ok () }

/-- Concrete deletion environment: one owned, not-terminating descendant and
an absent infrastructure object. -/
def delEnvFixture : DeleteEnv :=
  { list := fun _ => .ok [{ name := "child1", owned := true }],
    infraGet := .notFound }

/-- Concrete deleted Build with the forge finalizer and an infrastructure
reference. -/
def delBuildFixture : Build :=
  { meta := { name := "b1", deletionTimestamp := 7, finalizers := [BuildFinalizer] },
    spec := { infrastructureRef := some { kind := "AWSBuild", name := "x" } } }

/-- The descendant set `delEnvFixture` yields for `delBuildFixture`. -/
def delDescFixture : BuildDescendants :=
  { infraBuild := [{ name := "child1", owned := true }], provisioners := [] }

/-! ## Theorems -/

theorem stringsCompare_le_zero_iff (a b : String) : stringsCompare a b ≤ 0 ↔ a ≤ b := by
  unfold stringsCompare
  rcases lt_trichotomy a b with h | h | h
  · simp [h, le_of_lt h]
  · simp [h, lt_irrefl]
  · simp [h, not_lt_of_gt h, not_le_of_gt h]

theorem kubeVersionLE_refl (a : String) : kubeVersionLE a a := by
  unfold kubeVersionLE compareKubeAwareVersionStrings
  cases h : parseKubeVersion a with
  | none => rw [stringsCompare_le_zero_iff]
  | some p =>
    obtain ⟨m, t, n⟩ := p
    simp

theorem kubeVersionLE_total (a b : String) : kubeVersionLE a b ∨ kubeVersionLE b a := by
  unfold kubeVersionLE compareKubeAwareVersionStrings
  cases ha : parseKubeVersion a with
  | none =>
    cases hb : parseKubeVersion b with
    | none =>
      dsimp only
      rw [stringsCompare_le_zero_iff, stringsCompare_le_zero_iff]
      exact le_total b a
    | some q => exact Or.inl (by dsimp only; omega)
  | some p =>
    cases hb : parseKubeVersion b with
    | none => exact Or.inr (by dsimp only; omega)
    | some q =>
      obtain ⟨m1, t1, n1⟩ := p
      obtain ⟨m2, t2, n2⟩ := q
      dsimp only
      split_ifs <;> omega

theorem kubeVersionLE_trans (a b c : String) :
    kubeVersionLE a b → kubeVersionLE b c → kubeVersionLE a c := by
  unfold kubeVersionLE compareKubeAwareVersionStrings
  cases ha : parseKubeVersion a <;> cases hb : parseKubeVersion b <;>
    cases hc : parseKubeVersion c <;> dsimp only <;> intro h1 h2
  case none.none.none =>
    rw [stringsCompare_le_zero_iff] at h1 h2 ⊢
    exact le_trans h2 h1
  case some.some.some p q r =>
    obtain ⟨m1, t1, n1⟩ := p
    obtain ⟨m2, t2, n2⟩ := q
    obtain ⟨m3, t3, n3⟩ := r
    (try dsimp only at h1 h2 ⊢)
    split_ifs at h1 h2 ⊢ <;> omega
  all_goals omega

instance : IsTotal String kubeVersionLE := ⟨kubeVersionLE_total⟩

instance : IsTrans String kubeVersionLE := ⟨kubeVersionLE_trans⟩

theorem splitUnderscore_go_ne_nil (l acc : List Char) : splitUnderscore.go l acc ≠ [] := by
  induction l generalizing acc with
  | nil => simp [splitUnderscore.go]
  | cons ch rest ih =>
    unfold splitUnderscore.go
    split <;> simp [ih]

theorem splitUnderscore_ne_nil (s : String) : splitUnderscore s ≠ [] :=
  splitUnderscore_go_ne_nil s.data []

theorem mem_getLastD_cons {α : Type} (l : List α) (a : α) : l.getLastD a ∈ a :: l := by
  induction l generalizing a with
  | nil => exact List.mem_singleton.mpr rfl
  | cons b t ih =>
    rw [List.getLastD_cons]
    exact List.mem_cons_of_mem a (ih b)

theorem getLastD_mem_of_ne_nil {α : Type} {l : List α} (h : l ≠ []) (d : α) :
    l.getLastD d ∈ l := by
  cases l with
  | nil => exact absurd rfl h
  | cons b t =>
    rw [List.getLastD_cons]
    exact mem_getLastD_cons t b

theorem rel_getLastD_of_sorted {α : Type} {r : α → α → Prop} (hrefl : ∀ a, r a a) :
    ∀ (l : List α) (d : α), l.Sorted r → ∀ x ∈ l, r x (l.getLastD d) := by
  intro l
  induction l with
  | nil => simp
  | cons a t ih =>
    intro d hs x hx
    rw [List.getLastD_cons]
    rcases List.mem_cons.mp hx with rfl | hxt
    · rcases List.mem_cons.mp (mem_getLastD_cons t x) with h | h
      · rw [h]
        exact hrefl x
      · exact (List.sorted_cons.mp hs).1 _ h
    · exact ih a (List.sorted_cons.mp hs).2 x hxt

@[simp] theorem setTypedPhase_meta (b : Build) (p : BuildPhase) :
    (setTypedPhase b p).meta = b.meta := rfl

@[simp] theorem setTypedPhase_spec (b : Build) (p : BuildPhase) :
    (setTypedPhase b p).spec = b.spec := rfl

@[simp] theorem setTypedPhase_phase (b : Build) (p : BuildPhase) :
    (setTypedPhase b p).status.phase = p.toString := rfl

@[simp] theorem setTypedPhase_ready (b : Build) (p : BuildPhase) :
    (setTypedPhase b p).status.ready = b.status.ready := rfl

@[simp] theorem setTypedPhase_infraReady (b : Build) (p : BuildPhase) :
    (setTypedPhase b p).status.infrastructureReady = b.status.infrastructureReady := rfl

@[simp] theorem setTypedPhase_failureReason (b : Build) (p : BuildPhase) :
    (setTypedPhase b p).status.failureReason = b.status.failureReason := rfl

@[simp] theorem setTypedPhase_failureMessage (b : Build) (p : BuildPhase) :
    (setTypedPhase b p).status.failureMessage = b.status.failureMessage := rfl

@[simp] theorem setTypedPhase_conditions (b : Build) (p : BuildPhase) :
    (setTypedPhase b p).status.conditions = b.status.conditions := rfl

/-- C1: `reconcilePhase` recomputes `status.phase` as a derived projection in
the fixed order: empty phase ⇒ Pending (returning immediately); else
(infrastructureRef set and InfrastructureReady condition present) or
`status.infrastructureReady` ⇒ Building; failureReason or failureMessage set
overrides to Failed; a non-zero deletion timestamp overrides to Terminating;
`status.ready` overrides everything (even Terminating and Failed) to
Completed. -/
theorem reconcilePhase_is_ordered_projection (b : Build) :
    (reconcilePhase b).1.status.phase =
      (if b.status.phase = "" then "Pending"
       else if b.status.ready then "Completed"
       else if b.meta.deletionTimestamp ≠ 0 then "Terminating"
       else if b.status.failureReason.isSome || b.status.failureMessage.isSome then "Failed"
       else if (b.spec.infrastructureRef.isSome &&
                 conditionsHas b.status.conditions InfrastructureReadyCondition)
               || b.status.infrastructureReady then "Building"
       else b.status.phase) := by
  by_cases h0 : b.status.phase = ""
  · simp [reconcilePhase, h0, setTypedPhase, BuildPhase.toString]
  · by_cases h1 : (b.spec.infrastructureRef.isSome &&
        conditionsHas b.status.conditions InfrastructureReadyCondition) = true <;>
    by_cases h2 : b.status.infrastructureReady = true <;>
    by_cases h3 : (b.status.failureReason.isSome || b.status.failureMessage.isSome) = true <;>
    by_cases h4 : b.meta.deletionTimestamp = 0 <;>
    by_cases h5 : b.status.ready = true <;>
    (try simp [reconcilePhase, h0, h1, h2, h3, h4, h5, BuildPhase.toString])

/-- C10: the pause check is presence-based, not value-based: `IsPaused` holds
iff the Build spec is paused or the object carries the paused annotation key
with any value; in particular an object whose paused annotation has the string
value "false" is still treated as paused. -/
theorem isPaused_presence_based :
    (∀ (b : Build) (o : ObjectMeta),
      IsPaused b o = true ↔
        b.spec.paused = true ∨ (o.annotations.lookup PausedAnnotationKey).isSome) ∧
    IsPaused { spec := { paused := false } }
      { annotations := [(PausedAnnotationKey, "false")] } = true := by
  constructor
  · intro b o
    simp [IsPaused, HasPaused, hasAnnot]
  · decide

/-- C4: version resolution parses the contract label as an
underscore-delimited version list, sorts it with the kube-aware ordering and
returns the maximum: "v1alpha1_v1beta1_v1" resolves to "v1",
"v1alpha2_v1alpha1" resolves to "v1alpha2"; a missing or empty label is a
hard error; in general the returned version is an element of the parsed list
that dominates every element in the kube-aware order. -/
theorem getLatestAPIVersion_resolution :
    getLatestAPIVersionFromContract [(contractLabel, "v1alpha1_v1beta1_v1")] = .ok "v1" ∧
    getLatestAPIVersionFromContract [(contractLabel, "v1alpha2_v1alpha1")] = .ok "v1alpha2" ∧
    (∀ labels, labels.lookup contractLabel = none ∨ labels.lookup contractLabel = some "" →
      ∃ e, getLatestAPIVersionFromContract labels = .error e) ∧
    (∀ labels s result, labels.lookup contractLabel = some s → s ≠ "" →
      getLatestAPIVersionFromContract labels = .ok result →
      result ∈ splitUnderscore s ∧
        ∀ v ∈ splitUnderscore s, compareKubeAwareVersionStrings v result ≤ 0) := by
  refine ⟨rfl, rfl, ?_, ?_⟩
  · intro labels h
    rcases h with h | h <;>
      exact ⟨"cannot find any versions matching contract " ++ contractLabel,
        by simp [getLatestAPIVersionFromContract, h]⟩
  · intro labels s result hl hs hok
    unfold getLatestAPIVersionFromContract at hok
    rw [hl] at hok
    dsimp only at hok
    rw [if_neg hs] at hok
    have hres : result = (sortKubeVersions (splitUnderscore s)).getLastD "" :=
      (Except.ok.inj hok).symm
    have hperm : List.Perm (sortKubeVersions (splitUnderscore s)) (splitUnderscore s) :=
      List.perm_insertionSort kubeVersionLE (splitUnderscore s)
    have hnil : sortKubeVersions (splitUnderscore s) ≠ [] := by
      intro hcontra
      apply splitUnderscore_ne_nil s
      have := hperm.length_eq
      rw [hcontra] at this
      exact List.length_eq_zero.mp this.symm
    have hsorted : (sortKubeVersions (splitUnderscore s)).Sorted kubeVersionLE :=
      List.sorted_insertionSort kubeVersionLE (splitUnderscore s)
    constructor
    · rw [hres]
      exact hperm.mem_iff.mp (getLastD_mem_of_ne_nil hnil "")
    · intro v hv
      have hv' : v ∈ sortKubeVersions (splitUnderscore s) := hperm.mem_iff.mpr hv
      have := rel_getLastD_of_sorted kubeVersionLE_refl _ "" hsorted v hv'
      rw [hres]
      exact this

/-- Witness for C4: instantiates the error branch at a label map missing the
contract key, and the maximality statement at the first example label. -/
theorem getLatestAPIVersion_resolution_witness :
    (∃ e, getLatestAPIVersionFromContract [("other", "v1")] = .error e) ∧
    ("v1" ∈ splitUnderscore "v1alpha1_v1beta1_v1" ∧
      ∀ v ∈ splitUnderscore "v1alpha1_v1beta1_v1",
        compareKubeAwareVersionStrings v "v1" ≤ 0) :=
  ⟨getLatestAPIVersion_resolution.2.2.1 [("other", "v1")] (Or.inl rfl),
   getLatestAPIVersion_resolution.2.2.2 [(contractLabel, "v1alpha1_v1beta1_v1")]
     "v1alpha1_v1beta1_v1" "v1" rfl (by decide) rfl⟩

theorem meta_ite_setTypedPhase (c : Prop) [Decidable c] (x : Build) (p : BuildPhase) :
    (if c then setTypedPhase x p else x).meta = x.meta := by
  split_ifs <;> rfl

theorem reconcilePhase_meta (b : Build) : (reconcilePhase b).1.meta = b.meta := by
  unfold reconcilePhase
  by_cases h0 : b.status.phase = ""
  · simp [h0]
  · simp only [h0, if_false, meta_ite_setTypedPhase]

theorem mem_addFinalizerTo (b : Build) :
    BuildFinalizer ∈ (addFinalizerTo b).meta.finalizers := by
  unfold addFinalizerTo
  split_ifs with h
  · exact h
  · simp

/-- C5: when the untyped fetch inside `reconcileExternal` reports not-found,
the function returns requeueAfter = 30 seconds and a nil error; any other
fetch error is returned as a hard error. -/
theorem reconcileExternal_fetch_branches (env : ExternalEnv) (b : Build)
    (ref : ObjectReference) :
    (updateReferenceAPIContract env.crdLabels = none →
      env.fetch = .notFound →
      reconcileExternal env b ref = ({ requeueAfter := 30 }, none, b, [])) ∧
    (∀ e, updateReferenceAPIContract env.crdLabels = none →
      env.fetch = .err e →
      reconcileExternal env b ref = ({}, some e, b, [])) := by
  constructor
  · intro hc hf
    unfold reconcileExternal
    rw [hc, hf]
  · intro e hc hf
    unfold reconcileExternal
    rw [hc, hf]

/-- Witness for C5, at a store whose CRD carries the contract label and whose
fetch reports not-found (and, for the second branch, a generic error). -/
theorem reconcileExternal_fetch_branches_witness :
    (updateReferenceAPIContract (Except.ok [(contractLabel, "v1")]) = none ∧
      reconcileExternal { crdLabels := .ok [(contractLabel, "v1")], fetch := .notFound }
        {} {} = ({ requeueAfter := 30 }, none, {}, [])) ∧
    reconcileExternal { crdLabels := .ok [(contractLabel, "v1")], fetch := .err "boom" }
        {} {} = ({}, some "boom", {}, []) :=
  ⟨⟨rfl, (reconcileExternal_fetch_branches
      { crdLabels := .ok [(contractLabel, "v1")], fetch := .notFound } {} {}).1 rfl rfl⟩,
   (reconcileExternal_fetch_branches
      { crdLabels := .ok [(contractLabel, "v1")], fetch := .err "boom" } {} {}).2
     "boom" rfl rfl⟩

/-- C8: a non-deleted, non-paused Build that does not yet carry the forge
finalizer gets the finalizer added and the pass returns immediately with an
empty result and no error (given the deferred status patch succeeds), without
invoking any forward phase. -/
theorem reconcile_adds_finalizer_first (env : ReconcileEnv) (b : Build)
    (hget : env.getBuild = .ok b)
    (hpause : IsPaused b b.meta = false)
    (hph : env.patchHelperErr = none)
    (hdel : b.meta.deletionTimestamp = 0)
    (hfin : BuildFinalizer ∉ b.meta.finalizers)
    (hpatch : env.patchErr = none) :
    ∃ (b2 : Build) (acts : List Action),
      Reconcile env = .ok ({}, none, some b2, acts) ∧
      BuildFinalizer ∈ b2.meta.finalizers ∧
      ∀ s, Action.invokePhase s ∉ acts := by
  unfold Reconcile
  simp only [hget]
  rw [if_neg (by simp [hpause])]
  simp only [hph]
  rw [if_neg (by simp [hdel]), if_pos (by simp [hfin])]
  simp only [hpatch]
  refine ⟨(reconcilePhase (addFinalizerTo b)).1,
    [Action.addFinalizer] ++ (reconcilePhase (addFinalizerTo b)).2.map Action.emitEvent
      ++ [Action.patchBuild], ?_, ?_, ?_⟩
  · rfl
  · rw [reconcilePhase_meta]
    exact mem_addFinalizerTo b
  · intro s
    simp [List.mem_append, List.mem_map]

/-- Witness for C8: a fresh default Build (no finalizer, not paused, no
deletion timestamp). -/
theorem reconcile_adds_finalizer_first_witness :
    ∃ (b2 : Build) (acts : List Action),
      Reconcile { getBuild := .ok {} } = .ok ({}, none, some b2, acts) ∧
      BuildFinalizer ∈ b2.meta.finalizers ∧
      ∀ s, Action.invokePhase s ∉ acts :=
  reconcile_adds_finalizer_first { getBuild := .ok {} } {} rfl rfl rfl rfl
    (by decide) rfl

/-- C3: while any descendant remains, the deletion pass (with all child
deletions succeeding) requeues after 5 seconds; it never touches the
infrastructure object by reference while descendants remain; and the
finalizer is removed (with a "Deleted" event) only in a pass with zero
descendants in which the infrastructure object is confirmed absent or was
never referenced — and in exactly that situation removal does occur. -/
theorem reconcileDelete_descendant_gating (env : DeleteEnv) (b : Build) :
    (∀ ref d, b.spec.infrastructureRef = some ref →
      listDescendants env b = .ok (d, none) →
      d.length > 0 →
      (∀ child ∈ (filterOwnedDescendants d).filter (fun c => c.deletionTimestamp == 0),
        child.deleteErr = none) →
      reconcileDelete env b =
        .ok ({ requeueAfter := deleteRequeueAfter }, none, b,
          ((filterOwnedDescendants d).filter (fun c => c.deletionTimestamp == 0)).map
            (fun c => Action.deleteChild c.name))) ∧
    (∀ d res err b2 acts, listDescendants env b = .ok (d, none) →
      d.length > 0 →
      reconcileDelete env b = .ok (res, err, b2, acts) →
      Action.getInfra ∉ acts ∧ (∀ n, Action.deleteInfra n ∉ acts) ∧
        Action.removeFinalizer ∉ acts) ∧
    (∀ res err b2 acts, reconcileDelete env b = .ok (res, err, b2, acts) →
      Action.removeFinalizer ∈ acts →
      ∃ d, listDescendants env b = .ok (d, none) ∧ d.length = 0 ∧
        (b.spec.infrastructureRef = none ∨ env.infraGet = .notFound) ∧
        ∃ ev, Action.emitEvent ev ∈ acts ∧ ev.reason = "Deleted") ∧
    (∀ ref d, b.spec.infrastructureRef = some ref →
      listDescendants env b = .ok (d, none) →
      d.length = 0 →
      env.infraGet = .notFound →
      ∃ b2 acts, reconcileDelete env b = .ok ({}, none, b2, acts) ∧
        Action.removeFinalizer ∈ acts ∧
        b2.meta.finalizers = b.meta.finalizers.erase BuildFinalizer) := by
  refine ⟨?_, ?_, ?_, ?_⟩
  · intro ref d href hlist hlen hdel
    simp only [reconcileDelete, hlist]
    rw [if_neg (by simpa using List.filterMap_eq_nil_iff.mpr hdel), if_pos hlen]
  · intro d res err b2 acts hlist hlen hrec
    simp only [reconcileDelete, hlist] at hrec
    by_cases herrs : ((filterOwnedDescendants d).filter
        (fun c => c.deletionTimestamp == 0)).filterMap (fun c => c.deleteErr) ≠ []
    · rw [if_pos herrs] at hrec
      simp only [Except.ok.injEq, Prod.mk.injEq] at hrec
      obtain ⟨-, -, -, hacts⟩ := hrec
      subst hacts
      exact ⟨by simp, fun n => by simp, by simp⟩
    · rw [if_neg herrs, if_pos hlen] at hrec
      simp only [Except.ok.injEq, Prod.mk.injEq] at hrec
      obtain ⟨-, -, -, hacts⟩ := hrec
      subst hacts
      exact ⟨by simp, fun n => by simp, by simp⟩
  · intro res err b2 acts hrec hmem
    cases hld : listDescendants env b with
    | error p =>
      simp only [reconcileDelete, hld] at hrec
      exact Except.noConfusion hrec
    | ok pair =>
      obtain ⟨d, lerr⟩ := pair
      cases lerr with
      | some e =>
        simp only [reconcileDelete, hld] at hrec
        simp only [Except.ok.injEq, Prod.mk.injEq] at hrec
        obtain ⟨-, -, -, hacts⟩ := hrec
        subst hacts
        simp at hmem
      | none =>
        simp only [reconcileDelete, hld] at hrec
        by_cases herrs : ((filterOwnedDescendants d).filter
            (fun c => c.deletionTimestamp == 0)).filterMap (fun c => c.deleteErr) ≠ []
        · rw [if_pos herrs] at hrec
          simp only [Except.ok.injEq, Prod.mk.injEq] at hrec
          obtain ⟨-, -, -, hacts⟩ := hrec
          subst hacts
          simp at hmem
        · rw [if_neg herrs] at hrec
          by_cases hlen : d.length > 0
          · rw [if_pos hlen] at hrec
            simp only [Except.ok.injEq, Prod.mk.injEq] at hrec
            obtain ⟨-, -, -, hacts⟩ := hrec
            subst hacts
            simp at hmem
          · rw [if_neg hlen] at hrec
            cases href : b.spec.infrastructureRef with
            | none =>
              simp only [href] at hrec
              simp only [Except.ok.injEq, Prod.mk.injEq] at hrec
              obtain ⟨-, -, -, hacts⟩ := hrec
              subst hacts
              refine ⟨d, rfl, by omega, Or.inl rfl,
                { warning := false, reason := "Deleted",
                  message := "Build " ++ b.meta.name ++ " has been deleted" }, ?_, rfl⟩
              simp
            | some ref =>
              simp only [href] at hrec
              cases hig : env.infraGet with
              | notFound =>
                simp only [hig] at hrec
                simp only [Except.ok.injEq, Prod.mk.injEq] at hrec
                obtain ⟨-, -, -, hacts⟩ := hrec
                subst hacts
                refine ⟨d, rfl, by omega, Or.inr rfl,
                  { warning := false, reason := "Deleted",
                    message := "Build " ++ b.meta.name ++ " has been deleted" }, ?_, rfl⟩
                simp [markFalse]
              | err e =>
                simp only [hig] at hrec
                simp only [Except.ok.injEq, Prod.mk.injEq] at hrec
                obtain ⟨-, -, -, hacts⟩ := hrec
                subst hacts
                simp at hmem
              | ok obj =>
                simp only [hig] at hrec
                cases hde : obj.deleteErr with
                | some e =>
                  simp only [hde] at hrec
                  simp only [Except.ok.injEq, Prod.mk.injEq] at hrec
                  obtain ⟨-, -, -, hacts⟩ := hrec
                  subst hacts
                  simp at hmem
                | none =>
                  simp only [hde] at hrec
                  simp only [Except.ok.injEq, Prod.mk.injEq] at hrec
                  obtain ⟨-, -, -, hacts⟩ := hrec
                  subst hacts
                  simp at hmem
  · intro ref d href hlist hlen hinfra
    have hinf : d.infraBuild = [] := by
      unfold BuildDescendants.length at hlen
      cases hi : d.infraBuild with
      | nil => rfl
      | cons x xs => rw [hi] at hlen; simp at hlen
    have hprov : d.provisioners = [] := by
      unfold BuildDescendants.length at hlen
      cases hi : d.provisioners with
      | nil => rfl
      | cons x xs => rw [hi] at hlen; simp at hlen
    have hfilter : filterOwnedDescendants d = [] := by
      unfold filterOwnedDescendants
      rw [hinf, hprov]
      rfl
    simp only [reconcileDelete, hlist, hfilter, href, hinfra, List.filter_nil,
      List.filterMap_nil, List.map_nil, ne_eq, not_true_eq_false, if_false, hlen,
      Nat.lt_irrefl, List.nil_append]
    exact ⟨_, _, rfl, by simp, rfl⟩

theorem getD_set_self {α : Type} {l : List α} {i : Nat} (a d : α) (h : i < l.length) :
    (l.set i a).getD i d = a := by
  rw [List.getD_eq_getElem?_getD, List.getElem?_set_self h]
  rfl

/-- C6: for a ProvisionerSpec whose status is the terminal Failed value, the
shell provisioner Reconcile leaves the Build untouched when allowFail is set;
when allowFail is not set it makes the failure terminal for the Build:
failureReason becomes ProvisionerFailed and failureMessage embeds the
provisioner UUID and the captured reason and message. -/
theorem shellReconcile_failed_allowFail (env : ShellEnv) (build : Build)
    (spec : ProvisionerSpec) :
    (∀ u, spec.uuid = some u → spec.status = some .failed → spec.allowFail = true →
      shellReconcile env build spec = .ok ({}, none, build, spec, [])) ∧
    (∀ u fr fm, spec.uuid = some u → spec.status = some .failed →
      spec.allowFail = false →
      spec.failureReason = some fr → spec.failureMessage = some fm →
      ∃ b2, shellReconcile env build spec = .ok ({}, none, b2, spec, []) ∧
        b2.status.failureReason = some ProvisionerFailedError ∧
        b2.status.failureMessage =
          some ("Provisioner " ++ u ++ " failed with Reason " ++ fr
            ++ " and Message " ++ fm)) := by
  constructor
  · intro u hu hst haf
    unfold shellReconcile
    rw [hu]
    simp only [Option.isNone_some, Bool.false_eq_true, if_false]
    unfold shellStatusSwitch
    rw [hst]
    simp only [haf, if_true]
  · intro u fr fm hu hst haf hfr hfm
    unfold shellReconcile
    rw [hu]
    simp only [Option.isNone_some, Bool.false_eq_true, if_false]
    unfold shellStatusSwitch
    rw [hst]
    simp only [haf, Bool.false_eq_true, if_false]
    rw [hu, hfr, hfm]
    exact ⟨_, rfl, rfl, rfl⟩

/-- Witness for C6 at a concrete Failed spec, in both allowFail modes. -/
theorem shellReconcile_failed_allowFail_witness :
    (shellReconcile {} {}
      { uuid := some "u-1", status := some .failed, allowFail := true } =
      .ok ({}, none, {},
        { uuid := some "u-1", status := some .failed, allowFail := true }, [])) ∧
    (∃ b2, shellReconcile {} {}
      { uuid := some "u-1", status := some .failed, allowFail := false,
        failureReason := some "Error", failureMessage := some "boom" } =
      .ok ({}, none, b2,
        { uuid := some "u-1", status := some .failed, allowFail := false,
          failureReason := some "Error", failureMessage := some "boom" }, []) ∧
      b2.status.failureReason = some ProvisionerFailedError ∧
      b2.status.failureMessage =
        some ("Provisioner " ++ "u-1" ++ " failed with Reason " ++ "Error"
          ++ " and Message " ++ "boom")) :=
  ⟨(shellReconcile_failed_allowFail {} {}
      { uuid := some "u-1", status := some .failed, allowFail := true }).1
      "u-1" rfl rfl rfl,
   (shellReconcile_failed_allowFail {} {}
      { uuid := some "u-1", status := some .failed, allowFail := false,
        failureReason := some "Error", failureMessage := some "boom" }).2
      "u-1" "Error" "boom" rfl rfl rfl rfl rfl⟩

/-- Counterexample to C7 as stated: at a Job whose only condition has the
unrecognized type "Suspended", the observer returns the
unrecognized-condition error from the reconcile call instead of swallowing
it. -/
theorem reconcileJobs_unknown_condition_error_returned :
    (reconcileJobs
      { getJob := .ok { conditions := [{ type := "Suspended" }] },
        getBuild := .ok {} }).2.1 =
      some "unrecognized scan job condition: Suspended" := rfl

/-- C7 (amended): an unrecognized Job condition type mutates no state — the
Build is returned unchanged, nothing is patched or deleted — but the
unrecognized-condition error is returned from the reconcile (it does not
reach Build status). -/
theorem reconcileJobs_unknown_condition_no_mutation (env : ObserverEnv) (job : Job)
    (build : Build) (c : JobCondition) (rest : List JobCondition)
    (hjob : env.getJob = .ok job)
    (hconds : job.conditions = c :: rest)
    (hc1 : c.type ≠ "Complete") (hc2 : c.type ≠ "Failed")
    (hbuild : env.getBuild = .ok build)
    (hph : env.patchHelperErr = none) :
    reconcileJobs env =
      ({}, some ("unrecognized scan job condition: " ++ c.type), some build, []) := by
  unfold reconcileJobs
  rw [hjob]
  dsimp only
  rw [if_neg (by simp [hconds])]
  rw [hbuild]
  dsimp only
  rw [hph]
  dsimp only
  rw [hconds]
  dsimp only
  rw [if_neg hc1, if_neg hc2]

/-- Witness for C7 (amended) at the "Suspended" condition. -/
theorem reconcileJobs_unknown_condition_no_mutation_witness :
    reconcileJobs
      { getJob := .ok { conditions := [{ type := "Suspended" }] },
        getBuild := .ok {} } =
      ({}, some ("unrecognized scan job condition: " ++ "Suspended"), some {}, []) :=
  reconcileJobs_unknown_condition_no_mutation
    { getJob := .ok { conditions := [{ type := "Suspended" }] }, getBuild := .ok {} }
    { conditions := [{ type := "Suspended" }] } {} { type := "Suspended" } []
    rfl rfl (by decide) (by decide) rfl rfl

/-- C9: on a Failed Job whose Pod has exactly one terminated container with
exit code 1, reason "Error" and message "boom", the observer sets the
matching ProvisionerSpec (located by the provisioner-uuid label) to Failed
with failureReason "Error" and failureMessage "boom", patches the Build and
then deletes the Job. -/
theorem reconcileJobs_failed_job_scenario (env : ObserverEnv) (job : Job)
    (build : Build) (c : JobCondition) (rest : List JobCondition)
    (pod : Pod) (cs : ContainerStatus) (i : Nat)
    (hjob : env.getJob = .ok job)
    (hconds : job.conditions = c :: rest)
    (hct : c.type = "Failed")
    (hbuild : env.getBuild = .ok build)
    (hph : env.patchHelperErr = none)
    (hpod : env.podLookup = .ok (some pod))
    (hinit : pod.initContainerStatuses = [])
    (hcs : pod.containerStatuses = [cs])
    (hterm : cs.terminated = some { exitCode := 1, reason := "Error", message := "boom" })
    (hfind : build.spec.provisioners.findIdx?
      (fun p => p.uuid.getD "" == (job.meta.labels.lookup ProvisionerIDLabel).getD "")
      = some i)
    (hdel : env.deleteJobResult = .ok ()) :
    ∃ b2, reconcileJobs env =
        ({}, none, some b2, [Action.patchBuild, Action.deleteJob job.meta.name]) ∧
      (b2.spec.provisioners.getD i {}).status = some .failed ∧
      (b2.spec.provisioners.getD i {}).failureReason = some "Error" ∧
      (b2.spec.provisioners.getD i {}).failureMessage = some "boom" := by
  have hlen : i < build.spec.provisioners.length :=
    (List.findIdx?_eq_some_iff_findIdx_eq.mp hfind).1
  unfold reconcileJobs
  rw [hjob]
  dsimp only
  rw [if_neg (by simp [hconds])]
  rw [hbuild]
  dsimp only
  rw [hph]
  dsimp only
  rw [hconds]
  dsimp only
  rw [if_neg (by simp [hct]), if_pos hct]
  unfold processFailedScanJob
  rw [hpod]
  dsimp only
  unfold GetProvisionerByID
  rw [hfind]
  dsimp only
  unfold deleteJobErr
  rw [hdel]
  dsimp only
  have hstat : GetTerminatedContainersStatusesByPod (some pod) =
      [(cs.name, { exitCode := 1, reason := "Error", message := "boom" })] := by
    unfold GetTerminatedContainersStatusesByPod
    dsimp only
    rw [hinit, hcs]
    simp [hterm]
  rw [hstat]
  dsimp only [List.foldl_cons, List.foldl_nil]
  rw [if_neg (by decide)]
  refine ⟨_, rfl, ?_, ?_, ?_⟩ <;>
    rw [getD_set_self _ _ hlen]

/-- Witness for C9 at a concrete Failed Job, one-container Pod and a Build
with a matching provisioner UUID. -/
theorem reconcileJobs_failed_job_scenario_witness :
    ∃ b2, reconcileJobs failedObserverEnvFixture =
        ({}, none, some b2, [Action.patchBuild, Action.deleteJob "job-1"]) ∧
      (b2.spec.provisioners.getD 0 {}).status = some .failed ∧
      (b2.spec.provisioners.getD 0 {}).failureReason = some "Error" ∧
      (b2.spec.provisioners.getD 0 {}).failureMessage = some "boom" :=
  reconcileJobs_failed_job_scenario failedObserverEnvFixture failedJobFixture
    observedBuildFixture { type := "Failed" } [] failedPodFixture errorTermFixture
    0 rfl rfl rfl rfl rfl rfl rfl rfl rfl (by decide) rfl

/-- Witness for C3: a deleted Build with one remaining owned descendant
requeues after 5 seconds and deletes only the child. -/
theorem reconcileDelete_descendant_gating_witness :
    listDescendants delEnvFixture delBuildFixture = .ok (delDescFixture, none) ∧
    delDescFixture.length > 0 ∧
    reconcileDelete delEnvFixture delBuildFixture =
      .ok ({ requeueAfter := deleteRequeueAfter }, none, delBuildFixture,
        ((filterOwnedDescendants delDescFixture).filter
          (fun c => c.deletionTimestamp == 0)).map (fun c => Action.deleteChild c.name)) :=
  ⟨rfl, by decide,
   (reconcileDelete_descendant_gating delEnvFixture delBuildFixture).1
     { kind := "AWSBuild", name := "x" } delDescFixture rfl rfl (by decide) (by decide)⟩

theorem lowestNonZeroResult_zero_left (r : CtrlResult) :
    lowestNonZeroResult {} r = r := rfl

theorem lowestNonZeroResult_zero_right (r : CtrlResult) :
    lowestNonZeroResult r {} = r := by
  rcases r with ⟨rq, ra⟩
  unfold lowestNonZeroResult CtrlResult.isZero
  split_ifs with h1 <;> simp_all

theorem reconcileConnection_zero (b : Build) :
    (reconcileConnection b).1 = {} ∧ (reconcileConnection b).2.1 = none := by
  unfold reconcileConnection
  split_ifs <;> exact ⟨rfl, rfl⟩

theorem reconcileProvisioners_zero (b : Build) :
    (reconcileProvisioners b).1 = {} ∧ (reconcileProvisioners b).2.1 = none := by
  unfold reconcileProvisioners
  split_ifs <;> exact ⟨rfl, rfl⟩

theorem reconcileImageProvided_zero (b : Build) :
    (reconcileImageProvided b).1 = {} ∧ (reconcileImageProvided b).2.1 = none := by
  unfold reconcileImageProvided
  split_ifs <;> exact ⟨rfl, rfl⟩

theorem reconcileInfrastructure_cases (env : ExternalEnv) (b : Build) :
    (reconcileInfrastructure env b).2.1 = none ∨ (reconcileInfrastructure env b).1 = {} := by
  unfold reconcileInfrastructure
  cases href : b.spec.infrastructureRef with
  | none => exact Or.inl rfl
  | some ref =>
    dsimp only
    rcases hre : reconcileExternal env b ref with ⟨out, err2, b0, acts⟩
    dsimp only
    cases err2 with
    | some e => exact Or.inr rfl
    | none =>
      dsimp only
      cases hres : out.result with
      | none => split_ifs <;> exact Or.inl rfl
      | some infraConfig =>
        dsimp only
        split_ifs <;> exact Or.inl rfl

/-- C2: in every forward pass all four phases are invoked; the aggregate
error is the collection of every error any phase raised; and the aggregate
requeueAfter is the fold of `LowestNonZeroResult` over the results of all
executed phases (which, as the phases are implemented, is the smallest
non-zero requeue time among them — an erroring infrastructure phase reports a
zero result, and the later phases never requeue). -/
theorem forwardReconcile_aggregation (env : ExternalEnv) (b : Build) :
    (∀ name ∈ ["reconcileInfrastructure", "reconcileConnection",
        "reconcileProvisioners", "reconcileImageProvided"],
      Action.invokePhase name ∈ (forwardReconcile env b).2.2.2) ∧
    (forwardReconcile env b).2.1 =
      (phaseOutcomes (buildPhases env) b).filterMap (fun o => o.2) ∧
    (forwardReconcile env b).1 =
      (phaseOutcomes (buildPhases env) b).foldl
        (fun acc o => lowestNonZeroResult acc o.1) {} := by
  have hz1 := reconcileInfrastructure_cases env b
  rcases h1 : reconcileInfrastructure env b with ⟨r1, e1, b1, a1⟩
  rw [h1] at hz1
  dsimp only at hz1
  rcases h2 : reconcileConnection b1 with ⟨r2, e2, b2, a2⟩
  have hz2 := reconcileConnection_zero b1
  rw [h2] at hz2
  obtain ⟨hr2, he2⟩ := hz2
  dsimp only at hr2 he2
  subst hr2
  subst he2
  rcases h3 : reconcileProvisioners b2 with ⟨r3, e3, b3, a3⟩
  have hz3 := reconcileProvisioners_zero b2
  rw [h3] at hz3
  obtain ⟨hr3, he3⟩ := hz3
  dsimp only at hr3 he3
  subst hr3
  subst he3
  rcases h4 : reconcileImageProvided b3 with ⟨r4, e4, b4, a4⟩
  have hz4 := reconcileImageProvided_zero b3
  rw [h4] at hz4
  obtain ⟨hr4, he4⟩ := hz4
  dsimp only at hr4 he4
  subst hr4
  subst he4
  cases e1 with
  | none =>
    refine ⟨?_, ?_, ?_⟩ <;>
      simp [forwardReconcile, buildPhases, runPhases, phaseOutcomes, h1, h2, h3, h4,
        lowestNonZeroResult_zero_left, lowestNonZeroResult_zero_right]
  | some e =>
    have hr1 : r1 = {} := by
      rcases hz1 with h | h
      · exact absurd h (by simp)
      · exact h
    subst hr1
    refine ⟨?_, ?_, ?_⟩ <;>
      simp [forwardReconcile, buildPhases, runPhases, phaseOutcomes, h1, h2, h3, h4,
        lowestNonZeroResult_zero_left, lowestNonZeroResult_zero_right]

/-- Witness for C2 at the default environment and Build: the marker of every
phase is present and the error aggregation matches the outcome list. -/
theorem forwardReconcile_aggregation_witness :
    Action.invokePhase "reconcileImageProvided" ∈ (forwardReconcile {} {}).2.2.2 ∧
    (forwardReconcile {} {}).2.1 =
      (phaseOutcomes (buildPhases {}) {}).filterMap (fun o => o.2) :=
  ⟨(forwardReconcile_aggregation {} {}).1 "reconcileImageProvided" (by decide),
   (forwardReconcile_aggregation {} {}).2.1⟩

end Forge
